import Mathlib

/-!
Verification of the LDAP object datasource core
(`internal/provider/ldap_object_data_source.go` and
`internal/provider/tools.go` of terraform-provider-ldap).

The Go code is shallowly embedded: terraform's three-state string values
become `TFString`, the datasource configuration becomes
`LDAPObjectDatasourceModel`, the directory connection becomes a function
from a search request to either a transport error or a list of entries,
and the terraform response state becomes an explicit record written by
`SetAttribute`-style field updates.
-/

namespace LDAPProvider

/-- A terraform `types.String`: null, unknown, or a concrete value.
Mirrors the three states tested by `IsNull`/`IsUnknown`/`ValueString`. -/
inductive TFString where
  | null
  | unknown
  | value (s : String)
deriving DecidableEq

/-- `types.String.IsNull`. -/
def TFString.isNull : TFString → Bool
  | TFString.null => true
  | _ => false

/-- `types.String.IsUnknown`. -/
def TFString.isUnknown : TFString → Bool
  | TFString.unknown => true
  | _ => false

/-- `types.String.ValueString`: the value, or `""` for null/unknown. -/
def TFString.valueString : TFString → String
  | TFString.value s => s
  | _ => ""

/-- A value counts as configured when the user supplied it (terraform
validators only fire on configured, i.e. non-null non-unknown, values). -/
def TFString.isConfigured : TFString → Bool
  | TFString.value _ => true
  | _ => false

/-- The configurable fields of `LDAPObjectDatasourceModel` that `Read`
consumes (`id`, `object_classes` and `attributes` are computed outputs;
the values `Read` reads from them at lines 109-114 are discarded: the
attributes map is immediately overwritten with a fresh empty map and the
object-classes slice is never used afterwards). -/
structure LDAPObjectDatasourceModel where
  dn : TFString
  baseDN : TFString
  scope : TFString
  filter : TFString
deriving DecidableEq

/-- `ldap.ScopeBaseObject` (go-ldap). -/
def ScopeBaseObject : Nat := 0

/-- `ldap.ScopeSingleLevel` (go-ldap). -/
def ScopeSingleLevel : Nat := 1

/-- `ldap.ScopeWholeSubtree` (go-ldap). -/
def ScopeWholeSubtree : Nat := 2

/-- One attribute of an `ldap.Entry`: a name with an ordered value list. -/
structure EntryAttribute where
  name : String
  values : List String
deriving DecidableEq

/-- An `ldap.Entry`: a DN plus its attributes in the order the directory
returned them. -/
structure Entry where
  dn : String
  attributes : List EntryAttribute
deriving DecidableEq

/-- The fields of `ldap.SearchRequest` that `GetEntry` fills in via
`ldap.NewSearchRequest` (the controls argument, passed as an empty list,
carries no information and is omitted). -/
structure SearchRequest where
  baseDn : String
  scope : Nat
  derefAliases : Nat
  sizeLimit : Nat
  timeLimit : Nat
  typesOnly : Bool
  filter : String
  attributes : List String
deriving DecidableEq

/-- `ldap.NewSearchRequest` restricted to the fields modelled above. -/
def NewSearchRequest (baseDn : String) (scope derefAliases sizeLimit timeLimit : Nat)
    (typesOnly : Bool) (filter : String) (attributes : List String) : SearchRequest :=
  { baseDn := baseDn, scope := scope, derefAliases := derefAliases, sizeLimit := sizeLimit,
    timeLimit := timeLimit, typesOnly := typesOnly, filter := filter, attributes := attributes }

/-- A directory connection, modelled by what `conn.Search` answers for a
request: a transport/protocol error message, or the list of matched
entries. -/
def Conn : Type := SearchRequest → Except String (List Entry)

/-- The message built by `fmt.Errorf("search returned %d results", n)`:
`%d` renders the count in decimal, which is `Nat.repr`. -/
def searchResultsMessage (n : Nat) : String :=
  "search returned " ++ Nat.repr n ++ " results"

/-- `GetEntry` from `tools.go`: build the search request, run the search,
propagate a search error unchanged, demand exactly one entry, and return
it (`*result.Entries[0]`); any other count yields the formatted error. -/
def GetEntry (conn : Conn) (baseDn : String) (scope : Nat) (filter : String) :
    Except String Entry :=
  let s := NewSearchRequest baseDn scope 0 0 0 false filter []
  match conn s with
  | Except.error err => Except.error err
  | Except.ok result =>
    if h : result.length = 1 then
      Except.ok (result.get ⟨0, by omega⟩)
    else
      Except.error (searchResultsMessage result.length)

/-- Lines 119-125 of `Read`: the search base is the DN when one is
present, else the base DN. -/
def resolveBaseDn (data : LDAPObjectDatasourceModel) : String :=
  if data.dn.isUnknown || data.dn.isNull then
    data.baseDN.valueString
  else
    data.dn.valueString

/-- Lines 127-140 of `Read`: `var scope int` starts at Go's zero value 0;
a present scope string is switched over the three named values, and the
switch has no default branch, so an unmatched string leaves the zero
value (which equals `ldap.ScopeBaseObject`). -/
def resolveScope (data : LDAPObjectDatasourceModel) : Nat :=
  if data.scope.isUnknown || data.scope.isNull then
    ScopeBaseObject
  else
    match data.scope.valueString with
    | "baseObject" => ScopeBaseObject
    | "singleLevel" => ScopeSingleLevel
    | "wholeSubtree" => ScopeWholeSubtree
    | _ => 0

/-- Lines 142-148 of `Read`: the filter defaults to the match-all
expression `"(&)"` when absent. -/
def resolveFilter (data : LDAPObjectDatasourceModel) : String :=
  if data.filter.isUnknown || data.filter.isNull then
    "(&)"
  else
    data.filter.valueString

/-- The canonical search triple the spec calls `ResolvedQuery`. -/
structure ResolvedQuery where
  location : String
  scope : Nat
  filter : String
deriving DecidableEq

/-- The triple `Read` passes to `GetEntry`, assembled from the three
resolution steps above. -/
def resolve (data : LDAPObjectDatasourceModel) : ResolvedQuery :=
  { location := resolveBaseDn data, scope := resolveScope data, filter := resolveFilter data }

/-- The object-level terraform state `Read` writes through
`response.State.SetAttribute`: each field is unset (`none`) until a
`SetAttribute` call targets it; `attributes` is keyed by map key. -/
structure ObjectState where
  id : Option String
  dn : Option String
  objectClasses : Option (List String)
  attributes : String → Option (List String)

/-- The state before `Read` writes anything. -/
def emptyState : ObjectState :=
  { id := none, dn := none, objectClasses := none, attributes := fun _ => none }

/-- One iteration of the loop at lines 158-164: an attribute named
exactly `"objectClass"` is written to `object_classes`; any other
attribute is written under its name into the `attributes` map. -/
def writeAttr (s : ObjectState) (attr : EntryAttribute) : ObjectState :=
  if attr.name = "objectClass" then
    { s with objectClasses := some attr.values }
  else
    { s with attributes :=
        fun n => if n = attr.name then some attr.values else s.attributes n }

/-- Lines 156-164 of `Read`: set `dn` and `id` to the entry's DN, then
run the attribute loop over the entry's attributes in order. -/
def writeEntry (entry : Entry) (s : ObjectState) : ObjectState :=
  entry.attributes.foldl writeAttr { s with dn := some entry.dn, id := some entry.dn }

/-- The observable outcome of `Read`: the error diagnostics added and the
object state written. -/
structure ReadResponse where
  diagnostics : List (String × String)
  state : ObjectState

/-- `Read` (lines 106-166), for a well-typed configuration (the
`Config.Get`/`ElementsAs` deserialization at lines 107-117 cannot fail on
a well-typed model, so the early-return branch is not reachable here): if
`GetEntry` fails, add the "Can not read entry" diagnostic and write
nothing; otherwise write the entry into the state. -/
def Read (conn : Conn) (data : LDAPObjectDatasourceModel) : ReadResponse :=
  match GetEntry conn (resolveBaseDn data) (resolveScope data) (resolveFilter data) with
  | Except.error err =>
    { diagnostics := [("Can not read entry", err)], state := emptyState }
  | Except.ok entry =>
    { diagnostics := [], state := writeEntry entry emptyState }

/-- The upstream invariants declared by the schema validators
(lines 44-85): `ExactlyOneOf(dn, base_dn)`; a configured scope is one of
the three named values and conflicts with `dn`; a configured filter
conflicts with `dn`. -/
def SchemaValid (d : LDAPObjectDatasourceModel) : Prop :=
  (d.dn.isConfigured ≠ d.baseDN.isConfigured) ∧
  (d.scope.isConfigured = true →
    (d.scope.valueString = "baseObject" ∨ d.scope.valueString = "singleLevel" ∨
      d.scope.valueString = "wholeSubtree") ∧ d.dn.isConfigured = false) ∧
  (d.filter.isConfigured = true → d.dn.isConfigured = false)

instance (d : LDAPObjectDatasourceModel) : Decidable (SchemaValid d) := by
  unfold SchemaValid; infer_instance

/-! ### Facts about the attribute-writing loop -/

theorem writeAttr_id (s : ObjectState) (a : EntryAttribute) : (writeAttr s a).id = s.id := by
  unfold writeAttr; split <;> rfl

theorem writeAttr_dn (s : ObjectState) (a : EntryAttribute) : (writeAttr s a).dn = s.dn := by
  unfold writeAttr; split <;> rfl

theorem writeAttr_objectClasses_of_eq (s : ObjectState) (a : EntryAttribute)
    (h : a.name = "objectClass") : (writeAttr s a).objectClasses = some a.values := by
  unfold writeAttr; rw [if_pos h]

theorem writeAttr_objectClasses_of_ne (s : ObjectState) (a : EntryAttribute)
    (h : a.name ≠ "objectClass") : (writeAttr s a).objectClasses = s.objectClasses := by
  unfold writeAttr; rw [if_neg h]

theorem writeAttr_attributes_of_ne_key (s : ObjectState) (a : EntryAttribute) (n : String)
    (h : n ≠ a.name) : (writeAttr s a).attributes n = s.attributes n := by
  unfold writeAttr; split
  · rfl
  · simp [h]

theorem writeAttr_attributes_self (s : ObjectState) (a : EntryAttribute)
    (h : a.name ≠ "objectClass") : (writeAttr s a).attributes a.name = some a.values := by
  unfold writeAttr; rw [if_neg h]; simp

theorem foldl_writeAttr_id (l : List EntryAttribute) (s : ObjectState) :
    (l.foldl writeAttr s).id = s.id := by
  induction l generalizing s with
  | nil => rfl
  | cons a t ih => rw [List.foldl_cons, ih, writeAttr_id]

theorem foldl_writeAttr_dn (l : List EntryAttribute) (s : ObjectState) :
    (l.foldl writeAttr s).dn = s.dn := by
  induction l generalizing s with
  | nil => rfl
  | cons a t ih => rw [List.foldl_cons, ih, writeAttr_dn]

theorem foldl_writeAttr_attributes_not_mem (l : List EntryAttribute) (s : ObjectState)
    (n : String) (h : n ∉ l.map EntryAttribute.name) :
    (l.foldl writeAttr s).attributes n = s.attributes n := by
  induction l generalizing s with
  | nil => rfl
  | cons a t ih =>
    simp only [List.map_cons, List.mem_cons, not_or] at h
    rw [List.foldl_cons, ih _ h.2, writeAttr_attributes_of_ne_key s a n h.1]

theorem foldl_writeAttr_attributes_objectClass (l : List EntryAttribute) (s : ObjectState) :
    (l.foldl writeAttr s).attributes "objectClass" = s.attributes "objectClass" := by
  induction l generalizing s with
  | nil => rfl
  | cons a t ih =>
    rw [List.foldl_cons, ih]
    by_cases h : a.name = "objectClass"
    · unfold writeAttr; rw [if_pos h]
    · exact writeAttr_attributes_of_ne_key s a "objectClass" fun hc => h hc.symm

theorem foldl_writeAttr_objectClasses_none (l : List EntryAttribute) (s : ObjectState)
    (h : ∀ a ∈ l, a.name ≠ "objectClass") :
    (l.foldl writeAttr s).objectClasses = s.objectClasses := by
  induction l generalizing s with
  | nil => rfl
  | cons a t ih =>
    rw [List.foldl_cons, ih _ (fun c hc => h c (List.mem_cons_of_mem a hc)),
      writeAttr_objectClasses_of_ne s a (h a (List.mem_cons_self a t))]

theorem foldl_writeAttr_objectClasses_mem (l : List EntryAttribute) (s : ObjectState)
    (a : EntryAttribute) (ha : a ∈ l) (heq : a.name = "objectClass")
    (hnd : (l.map EntryAttribute.name).Nodup) :
    (l.foldl writeAttr s).objectClasses = some a.values := by
  induction l generalizing s with
  | nil => cases ha
  | cons b t ih =>
    simp only [List.map_cons, List.nodup_cons] at hnd
    rw [List.foldl_cons]
    rcases List.mem_cons.mp ha with rfl | hmem
    · have hnone : ∀ c ∈ t, c.name ≠ "objectClass" := by
        intro c hc hcc
        have hmm : c.name ∈ t.map EntryAttribute.name :=
          List.mem_map_of_mem EntryAttribute.name hc
        rw [hcc, ← heq] at hmm
        exact hnd.1 hmm
      rw [foldl_writeAttr_objectClasses_none t _ hnone,
        writeAttr_objectClasses_of_eq s a heq]
    · exact ih _ hmem hnd.2

theorem foldl_writeAttr_attributes_mem (l : List EntryAttribute) (s : ObjectState)
    (a : EntryAttribute) (ha : a ∈ l) (hne : a.name ≠ "objectClass")
    (hnd : (l.map EntryAttribute.name).Nodup) :
    (l.foldl writeAttr s).attributes a.name = some a.values := by
  induction l generalizing s with
  | nil => cases ha
  | cons b t ih =>
    simp only [List.map_cons, List.nodup_cons] at hnd
    rw [List.foldl_cons]
    rcases List.mem_cons.mp ha with rfl | hmem
    · rw [foldl_writeAttr_attributes_not_mem t _ a.name hnd.1,
        writeAttr_attributes_self s a hne]
    · exact ih _ hmem hnd.2

theorem writeEntry_dn (e : Entry) (s : ObjectState) : (writeEntry e s).dn = some e.dn := by
  unfold writeEntry; rw [foldl_writeAttr_dn]

theorem writeEntry_id (e : Entry) (s : ObjectState) : (writeEntry e s).id = some e.dn := by
  unfold writeEntry; rw [foldl_writeAttr_id]

/-! ### Decimal rendering facts, for the `search returned %d results` message -/

theorem toDigitsCore_len_ge (b : Nat) :
    ∀ (fuel m : Nat) (ds : List Char), ds.length ≤ (Nat.toDigitsCore b fuel m ds).length := by
  intro fuel
  induction fuel with
  | zero => intro m ds; exact Nat.le_refl _
  | succ f ih =>
    intro m ds
    simp only [Nat.toDigitsCore]
    split
    · simp
    · exact Nat.le_trans (by simp) (ih (m / b) (Nat.digitChar (m % b) :: ds))

theorem repr_length_ge_two (n : Nat) (h : 10 ≤ n) : 2 ≤ (Nat.repr n).length := by
  obtain ⟨f, rfl⟩ : ∃ f, n = f + 1 := ⟨n - 1, by omega⟩
  have key : ∀ (g : Nat), 2 ≤ (Nat.toDigitsCore 10 (g + 2) (f + 1) []).length := by
    intro g
    have hdiv : ¬((f + 1) / 10 = 0) := by omega
    simp only [Nat.toDigitsCore]
    rw [if_neg hdiv]
    split
    · simp
    · exact Nat.le_trans (by simp) (toDigitsCore_len_ge 10 g _ _)
  simpa only [Nat.repr, Nat.toDigits, String.length, List.asString] using key f

theorem repr_ne_zero_of_two_le (n : Nat) (h : 2 ≤ n) : Nat.repr n ≠ "0" := by
  by_cases hlt : n < 10
  · interval_cases n <;> decide
  · intro heq
    have h2 := repr_length_ge_two n (by omega)
    rw [heq] at h2
    exact absurd h2 (by decide)

theorem searchResultsMessage_ne_zero (n : Nat) (h : 2 ≤ n) :
    searchResultsMessage n ≠ searchResultsMessage 0 := by
  intro heq
  apply repr_ne_zero_of_two_le n h
  have hdata : "search returned ".data ++ ((Nat.repr n).data ++ " results".data)
      = "search returned ".data ++ ((Nat.repr 0).data ++ " results".data) := by
    simpa [searchResultsMessage, String.data_append, List.append_assoc]
      using congrArg String.data heq
  have h3 : Nat.repr n = Nat.repr 0 :=
    String.ext (List.append_cancel_right (List.append_cancel_left hdata))
  rw [h3]
  exact rfl

/-- Evaluation of `GetEntry` once the search response is known. -/
theorem getEntry_eq (conn : Conn) (baseDn : String) (scope : Nat) (filter : String)
    (r : List Entry)
    (h : conn (NewSearchRequest baseDn scope 0 0 0 false filter []) = Except.ok r) :
    GetEntry conn baseDn scope filter =
      if hh : r.length = 1 then Except.ok (r.get ⟨0, by omega⟩)
      else Except.error (searchResultsMessage r.length) := by
  simp only [GetEntry]
  rw [h]

/-! ### Concrete fixtures -/

/-- The spec's running example entry. -/
def aliceEntry : Entry :=
  { dn := "cn=alice,dc=example,dc=com",
    attributes := [{ name := "objectClass", values := ["top", "person"] },
                   { name := "mail", values := ["alice@example.com"] }] }

/-- An entry carrying no attribute named `objectClass`. -/
def mailOnlyEntry : Entry :=
  { dn := "cn=alice,dc=example,dc=com",
    attributes := [{ name := "mail", values := ["alice@example.com"] }] }

/-- A configuration that fetches by DN only. -/
def byDnData : LDAPObjectDatasourceModel :=
  { dn := TFString.value "cn=alice,dc=example,dc=com", baseDN := TFString.null,
    scope := TFString.null, filter := TFString.null }

/-- A configuration that searches under a base DN with scope and filter. -/
def bySearchData : LDAPObjectDatasourceModel :=
  { dn := TFString.null, baseDN := TFString.value "dc=example,dc=com",
    scope := TFString.value "singleLevel", filter := TFString.value "(cn=bob)" }

/-- A configuration that, in violation of the schema validators, carries
both a DN and a search scope. -/
def dnWithScopeData : LDAPObjectDatasourceModel :=
  { dn := TFString.value "cn=alice,dc=example,dc=com", baseDN := TFString.null,
    scope := TFString.value "wholeSubtree", filter := TFString.null }

/-- A configuration whose scope string is none of the three named values. -/
def bogusScopeData : LDAPObjectDatasourceModel :=
  { dn := TFString.null, baseDN := TFString.value "dc=example,dc=com",
    scope := TFString.value "children", filter := TFString.null }

/-- A connection that answers every request with the given entry list. -/
def connWith (l : List Entry) : Conn := fun _ => Except.ok l

/-! ### Claims -/

/-- C1 (counterexample): a specification carrying a DN together with a
supplied scope `"wholeSubtree"` resolves to scope `WholeSubtree`, not
`BaseObject` — a supplied scope value is not overridden in the DN
branch. -/
theorem resolve_byId_scope_not_overridden :
    (resolve dnWithScopeData).scope ≠ ScopeBaseObject := by decide

/-- C1 (amended): for a ByIdentifier specification whose scope and filter
are absent — which is what the upstream `ConflictsWith` validators
guarantee in this branch — resolution yields the DN itself, scope
`BaseObject` and the match-all filter. -/
theorem resolve_byId (data : LDAPObjectDatasourceModel)
    (hdn : data.dn.isUnknown = false) (hdn2 : data.dn.isNull = false)
    (hscope : data.scope.isUnknown = true ∨ data.scope.isNull = true)
    (hfilter : data.filter.isUnknown = true ∨ data.filter.isNull = true) :
    resolve data =
      { location := data.dn.valueString, scope := ScopeBaseObject, filter := "(&)" } := by
  rcases hscope with h | h <;> rcases hfilter with h2 | h2 <;>
    simp [resolve, resolveBaseDn, resolveScope, resolveFilter, hdn, hdn2, h, h2]

/-- C1 witness: the amended statement at a concrete DN-only
specification. -/
theorem resolve_byId_witness :
    resolve byDnData =
      { location := "cn=alice,dc=example,dc=com", scope := ScopeBaseObject,
        filter := "(&)" } :=
  resolve_byId byDnData rfl rfl (Or.inr rfl) (Or.inr rfl)

/-- C2: a zero-entry response makes `GetEntry` fail with the
`search returned 0 results` message, and an n-entry response with n ≥ 2
makes it fail with the message carrying that exact count, which differs
from the zero-results message, so the caller can tell the two failure
kinds apart. -/
theorem getEntry_cardinality (conn : Conn) (baseDn : String) (scope : Nat) (filter : String)
    (r : List Entry)
    (h : conn (NewSearchRequest baseDn scope 0 0 0 false filter []) = Except.ok r) :
    (r.length = 0 → GetEntry conn baseDn scope filter
        = Except.error (searchResultsMessage 0)) ∧
    (2 ≤ r.length → GetEntry conn baseDn scope filter
        = Except.error (searchResultsMessage r.length) ∧
      searchResultsMessage r.length ≠ searchResultsMessage 0) := by
  constructor
  · intro h0
    rw [getEntry_eq conn baseDn scope filter r h, dif_neg (by omega), h0]
  · intro h2
    refine ⟨?_, searchResultsMessage_ne_zero r.length h2⟩
    rw [getEntry_eq conn baseDn scope filter r h, dif_neg (by omega)]

/-- C2 witness: the statement at a zero-entry and a two-entry response. -/
theorem getEntry_cardinality_witness :
    (GetEntry (connWith []) "dc=example,dc=com" ScopeWholeSubtree "(cn=bob)"
        = Except.error (searchResultsMessage 0)) ∧
    (GetEntry (connWith [aliceEntry, mailOnlyEntry]) "dc=example,dc=com"
          ScopeWholeSubtree "(cn=bob)"
        = Except.error (searchResultsMessage 2) ∧
      searchResultsMessage 2 ≠ searchResultsMessage 0) :=
  ⟨(getEntry_cardinality (connWith []) "dc=example,dc=com" ScopeWholeSubtree "(cn=bob)"
      [] rfl).1 rfl,
   (getEntry_cardinality (connWith [aliceEntry, mailOnlyEntry]) "dc=example,dc=com"
      ScopeWholeSubtree "(cn=bob)" [aliceEntry, mailOnlyEntry] rfl).2 (by decide)⟩

/-- C3: a search whose response holds exactly one entry succeeds and
returns that entry with its DN and attribute list untouched. -/
theorem getEntry_single (conn : Conn) (baseDn : String) (scope : Nat) (filter : String)
    (e : Entry)
    (h : conn (NewSearchRequest baseDn scope 0 0 0 false filter []) = Except.ok [e]) :
    GetEntry conn baseDn scope filter = Except.ok e := by
  rw [getEntry_eq conn baseDn scope filter [e] h]
  rfl

/-- C3 witness: the statement at a concrete one-entry response. -/
theorem getEntry_single_witness :
    GetEntry (connWith [aliceEntry]) "cn=alice,dc=example,dc=com" ScopeBaseObject "(&)"
      = Except.ok aliceEntry :=
  getEntry_single (connWith [aliceEntry]) "cn=alice,dc=example,dc=com" ScopeBaseObject
    "(&)" aliceEntry rfl

/-- C4: normalization moves the values of the attribute named exactly
`objectClass` into the object-classes field, writes no `objectClass` key
into the attributes map, and writes every other attribute under its own
name with its value list intact (attribute names unique within an entry,
per the directory protocol). -/
theorem writeEntry_normalizes (e : Entry)
    (hnd : (e.attributes.map EntryAttribute.name).Nodup) :
    ((writeEntry e emptyState).attributes "objectClass" = none) ∧
    (∀ a ∈ e.attributes, a.name = "objectClass" →
      (writeEntry e emptyState).objectClasses = some a.values) ∧
    (∀ a ∈ e.attributes, a.name ≠ "objectClass" →
      (writeEntry e emptyState).attributes a.name = some a.values) := by
  unfold writeEntry
  refine ⟨?_, ?_, ?_⟩
  · rw [foldl_writeAttr_attributes_objectClass]; rfl
  · intro a ha heq
    exact foldl_writeAttr_objectClasses_mem e.attributes _ a ha heq hnd
  · intro a ha hne
    exact foldl_writeAttr_attributes_mem e.attributes _ a ha hne hnd

/-- C4 witness: the spec's round-trip example. -/
theorem writeEntry_normalizes_witness :
    ((writeEntry aliceEntry emptyState).attributes "objectClass" = none) ∧
    (writeEntry aliceEntry emptyState).objectClasses = some ["top", "person"] ∧
    (writeEntry aliceEntry emptyState).attributes "mail" = some ["alice@example.com"] := by
  have h := writeEntry_normalizes aliceEntry (by decide)
  exact ⟨h.1,
    h.2.1 { name := "objectClass", values := ["top", "person"] } (by decide) rfl,
    h.2.2 { name := "mail", values := ["alice@example.com"] } (by decide) (by decide)⟩

/-- C5: for a BySearch specification (no DN present), the resolved
location is the base DN; a present scope resolves to its named value and
an absent one to `BaseObject`; a present filter is used unchanged and an
absent one defaults to the match-all expression. -/
theorem resolve_bySearch (data : LDAPObjectDatasourceModel)
    (hdn : data.dn.isUnknown = true ∨ data.dn.isNull = true) :
    (resolve data).location = data.baseDN.valueString ∧
    ((data.scope.isUnknown = true ∨ data.scope.isNull = true) →
      (resolve data).scope = ScopeBaseObject) ∧
    (data.scope = TFString.value "baseObject" → (resolve data).scope = ScopeBaseObject) ∧
    (data.scope = TFString.value "singleLevel" → (resolve data).scope = ScopeSingleLevel) ∧
    (data.scope = TFString.value "wholeSubtree" → (resolve data).scope = ScopeWholeSubtree) ∧
    ((data.filter.isUnknown = true ∨ data.filter.isNull = true) →
      (resolve data).filter = "(&)") ∧
    (∀ f, data.filter = TFString.value f → (resolve data).filter = f) := by
  refine ⟨?_, ?_, ?_, ?_, ?_, ?_, ?_⟩
  · rcases hdn with h | h <;> simp [resolve, resolveBaseDn, h]
  · intro hs; rcases hs with h | h <;> simp [resolve, resolveScope, h]
  · intro hs
    simp [resolve, resolveScope, hs, TFString.isUnknown, TFString.isNull,
      TFString.valueString]
  · intro hs
    simp [resolve, resolveScope, hs, TFString.isUnknown, TFString.isNull,
      TFString.valueString]
  · intro hs
    simp [resolve, resolveScope, hs, TFString.isUnknown, TFString.isNull,
      TFString.valueString]
  · intro hf; rcases hf with h | h <;> simp [resolve, resolveFilter, h]
  · intro f hf
    simp [resolve, resolveFilter, hf, TFString.isUnknown, TFString.isNull,
      TFString.valueString]

/-- C5 witness: the statement at the spec's BySearch scenario. -/
theorem resolve_bySearch_witness :
    (resolve bySearchData).location = "dc=example,dc=com" ∧
    (resolve bySearchData).scope = ScopeSingleLevel ∧
    (resolve bySearchData).filter = "(cn=bob)" := by
  have h := resolve_bySearch bySearchData (Or.inr rfl)
  exact ⟨h.1, h.2.2.2.1 rfl, h.2.2.2.2.2.2 "(cn=bob)" rfl⟩

/-- C6 (counterexample): `dnWithScopeData` violates the upstream schema
invariants (a scope configured together with a DN), yet resolution
succeeds and `Read` raises no diagnostic — there is no defensive
invalid-specification failure. -/
theorem read_no_invalid_spec_check :
    ¬ SchemaValid dnWithScopeData ∧
    (Read (connWith [aliceEntry]) dnWithScopeData).diagnostics = [] := by
  exact ⟨by decide, rfl⟩

/-- C6 (amended): query resolution is pure and total and never fails: no
defensive check exists, so for every specification — whether or not it
satisfies the upstream invariants — resolution produces a triple, and
whenever the search succeeds `Read` reports no error at all. -/
theorem read_resolution_never_fails (conn : Conn) (data : LDAPObjectDatasourceModel)
    (e : Entry)
    (h : GetEntry conn (resolveBaseDn data) (resolveScope data) (resolveFilter data)
      = Except.ok e) :
    (Read conn data).diagnostics = [] := by
  unfold Read
  rw [h]

/-- C6 witness: the amended statement at a concrete
invariant-violating specification. -/
theorem read_resolution_never_fails_witness :
    (Read (connWith [aliceEntry]) dnWithScopeData).diagnostics = [] :=
  read_resolution_never_fails (connWith [aliceEntry]) dnWithScopeData aliceEntry rfl

/-- C7 (counterexample): a successful read of an entry that has no
`objectClass` attribute writes the `dn` and `id` fields but never writes
`object_classes`, so the outcome is neither a fully populated object nor
an untouched state. -/
theorem read_partial_state_on_success :
    ¬ (((Read (connWith [mailOnlyEntry]) byDnData).state.dn = none ∧
        (Read (connWith [mailOnlyEntry]) byDnData).state.id = none ∧
        (Read (connWith [mailOnlyEntry]) byDnData).state.objectClasses = none) ∨
       ((Read (connWith [mailOnlyEntry]) byDnData).state.dn ≠ none ∧
        (Read (connWith [mailOnlyEntry]) byDnData).state.id ≠ none ∧
        (Read (connWith [mailOnlyEntry]) byDnData).state.objectClasses ≠ none)) := by
  decide

/-- C7 (amended): a failed read writes no object fields at all — the
state stays empty and a single error diagnostic is reported; a
successful read writes the entry's fields, but `object_classes` is only
written when the entry carries an `objectClass` attribute, so success
need not populate every field. -/
theorem read_failure_writes_nothing (conn : Conn) (data : LDAPObjectDatasourceModel)
    (err : String)
    (h : GetEntry conn (resolveBaseDn data) (resolveScope data) (resolveFilter data)
      = Except.error err) :
    (Read conn data).state = emptyState ∧
    (Read conn data).diagnostics = [("Can not read entry", err)] := by
  unfold Read
  rw [h]
  exact ⟨rfl, rfl⟩

/-- C7 witness: the amended statement at a concrete empty response. -/
theorem read_failure_writes_nothing_witness :
    (Read (connWith []) byDnData).state = emptyState ∧
    (Read (connWith []) byDnData).diagnostics
      = [("Can not read entry", searchResultsMessage 0)] :=
  read_failure_writes_nothing (connWith []) byDnData (searchResultsMessage 0) rfl

/-- C8: on a successful read both the `id` and the `dn` state fields are
set to exactly the returned entry's DN. -/
theorem read_sets_id_and_dn (conn : Conn) (data : LDAPObjectDatasourceModel) (e : Entry)
    (h : GetEntry conn (resolveBaseDn data) (resolveScope data) (resolveFilter data)
      = Except.ok e) :
    (Read conn data).state.dn = some e.dn ∧ (Read conn data).state.id = some e.dn := by
  unfold Read
  rw [h]
  exact ⟨writeEntry_dn e emptyState, writeEntry_id e emptyState⟩

/-- C8 witness: the statement at a concrete successful read. -/
theorem read_sets_id_and_dn_witness :
    (Read (connWith [aliceEntry]) byDnData).state.dn = some "cn=alice,dc=example,dc=com" ∧
    (Read (connWith [aliceEntry]) byDnData).state.id = some "cn=alice,dc=example,dc=com" :=
  read_sets_id_and_dn (connWith [aliceEntry]) byDnData aliceEntry rfl

/-- C9: a present scope string other than the three named values resolves
to `BaseObject` — the default-less switch leaves the Go zero value —
rather than failing. -/
theorem resolve_scope_unnamed (data : LDAPObjectDatasourceModel) (s : String)
    (hs : data.scope = TFString.value s)
    (h1 : s ≠ "baseObject") (h2 : s ≠ "singleLevel") (h3 : s ≠ "wholeSubtree") :
    (resolve data).scope = ScopeBaseObject := by
  simp only [resolve]
  unfold resolveScope
  rw [hs]
  simp only [TFString.isUnknown, TFString.isNull, TFString.valueString, Bool.or_self,
    Bool.false_eq_true, if_false]
  rfl

/-- C9 witness: the statement at the unnamed scope string `"children"`. -/
theorem resolve_scope_unnamed_witness :
    (resolve bogusScopeData).scope = ScopeBaseObject :=
  resolve_scope_unnamed bogusScopeData "children" rfl (by decide) (by decide) (by decide)

/-- C10: if the single returned entry has no attribute named exactly
`objectClass`, the object-classes field is never written and stays unset
(not set to an empty list), while every other attribute is still written
under its name (names unique, per the directory protocol). -/
theorem writeEntry_no_objectClass (e : Entry)
    (h : ∀ a ∈ e.attributes, a.name ≠ "objectClass")
    (hnd : (e.attributes.map EntryAttribute.name).Nodup) :
    (writeEntry e emptyState).objectClasses = none ∧
    ∀ a ∈ e.attributes, (writeEntry e emptyState).attributes a.name = some a.values := by
  unfold writeEntry
  constructor
  · rw [foldl_writeAttr_objectClasses_none e.attributes _ h]; rfl
  · intro a ha
    exact foldl_writeAttr_attributes_mem e.attributes _ a ha (h a ha) hnd

/-- C10 witness: the statement at an entry with a single `mail`
attribute. -/
theorem writeEntry_no_objectClass_witness :
    (writeEntry mailOnlyEntry emptyState).objectClasses = none ∧
    (writeEntry mailOnlyEntry emptyState).attributes "mail" = some ["alice@example.com"] := by
  have h := writeEntry_no_objectClass mailOnlyEntry (by decide) (by decide)
  exact ⟨h.1, h.2 { name := "mail", values := ["alice@example.com"] } (by decide)⟩

end LDAPProvider
